import Mathlib

/-!
Verification of the intent-resolution and request-dispatch layer of the
`ecom_store_manager` repository, shallowly embedded in Lean 4.

The embedding follows the Python source:
* `src/src/orchestrator.py` — `ConversationHistory`, `Orchestrator.handle_user_message`,
  `Orchestrator._check_required_params`;
* `src/src/agents/action_agent.py` — `_extract_coupon_info`, `process_refund`,
  and the arity of the agents' `handle_message` entry points;
* `src/tools/llm_api.py` — the code-fence cleaning step of `LLMClient.query`.

External collaborators (the LLM backend, the WooCommerce API, the message-template
YAML store) are modelled as explicit parameters or, where the repository data is not
in the source tree, modelled from the spec (each such definition says so in its
doc comment).

Python values are modelled as follows: JSON values by an inductive `JValue`
(dicts by association lists with first-key-wins lookup, matching unique-key
Python dicts), strings by `String` / `List Char`, floats that are only compared
and copied (never arithmetically combined) by `ℚ`, and exceptions by explicit
outcome constructors or `Except`.
-/

/-- A JSON value as carried in the `params` dict of the LLM's structured answer.
Only null-ness is inspected by the orchestrator; other payloads are opaque. -/
inductive JValue where
  | null
  | s (v : String)
  | n (v : Int)
  | b (v : Bool)
deriving DecidableEq, Repr

/-- The `params` dict of a resolved intent (`response_data.get("params", {})`). -/
abbrev Params := List (String × JValue)

/-- Python `params[key]` / `key in params` on a dict, embedded as first-match
lookup in the association list. -/
def lookupParam (params : Params) (key : String) : Option JValue :=
  match params.find? (fun kv => kv.1 == key) with
  | some kv => some kv.2
  | none => none

/-- One entry of `ConversationHistory.history`
(`orchestrator.py`, `add_interaction`): the interaction dict
`{timestamp, user_message, system_response, agent, method}`.
The timestamp is an opaque string supplied by the caller (`datetime.now().isoformat()`). -/
structure Interaction where
  timestamp : String
  userMessage : String
  systemResponse : String
  agent : String
  method : Option String
deriving DecidableEq, Repr

/-- `ConversationHistory` (`orchestrator.py` lines 19-36): a list of interactions
plus the `max_history` bound (default 10). -/
structure ConversationHistory where
  history : List Interaction
  maxHistory : Nat
deriving DecidableEq, Repr

/-- `ConversationHistory.add_interaction`: append the interaction, then
`if len(self.history) > self.max_history: self.history.pop(0)`. -/
def ConversationHistory.addInteraction (h : ConversationHistory) (i : Interaction) :
    ConversationHistory :=
  if (h.history ++ [i]).length > h.maxHistory then ⟨(h.history ++ [i]).tail, h.maxHistory⟩
  else ⟨h.history ++ [i], h.maxHistory⟩

theorem addInteraction_maxHistory (h : ConversationHistory) (i : Interaction) :
    (h.addInteraction i).maxHistory = h.maxHistory := by
  unfold ConversationHistory.addInteraction
  split <;> rfl

theorem addInteraction_length_le (h : ConversationHistory) (i : Interaction)
    (hle : h.history.length ≤ h.maxHistory) :
    (h.addInteraction i).history.length ≤ h.maxHistory := by
  unfold ConversationHistory.addInteraction
  split
  · rename_i hgt
    simp only [List.length_append, List.length_cons, List.length_nil] at hgt ⊢
    cases hcons : h.history ++ [i] with
    | nil => simp at hcons
    | cons a t =>
      have : (h.history ++ [i]).length = t.length + 1 := by rw [hcons]; rfl
      simp only [List.length_append, List.length_cons, List.length_nil] at this
      simp only [hcons, List.tail_cons]
      omega
  · rename_i hng
    simp only [List.length_append, List.length_cons, List.length_nil] at hng ⊢
    omega

theorem foldl_addInteraction_length_le (ts : List Interaction) (h : ConversationHistory)
    (hle : h.history.length ≤ h.maxHistory) :
    (ts.foldl ConversationHistory.addInteraction h).history.length ≤
      (ts.foldl ConversationHistory.addInteraction h).maxHistory := by
  induction ts generalizing h with
  | nil => exact hle
  | cons t ts ih =>
    simp only [List.foldl_cons]
    exact ih (h.addInteraction t)
      (by rw [addInteraction_maxHistory]; exact addInteraction_length_le h t hle)

theorem foldl_addInteraction_maxHistory (ts : List Interaction) (h : ConversationHistory) :
    (ts.foldl ConversationHistory.addInteraction h).maxHistory = h.maxHistory := by
  induction ts generalizing h with
  | nil => rfl
  | cons t ts ih =>
    simp only [List.foldl_cons]
    rw [ih, addInteraction_maxHistory]

theorem foldl_addInteraction_no_evict (ts : List Interaction) (h : ConversationHistory)
    (hroom : h.history.length + ts.length ≤ h.maxHistory) :
    (ts.foldl ConversationHistory.addInteraction h).history = h.history ++ ts := by
  induction ts generalizing h with
  | nil => simp
  | cons t ts ih =>
    simp only [List.foldl_cons]
    have hstep : (h.addInteraction t).history = h.history ++ [t] := by
      unfold ConversationHistory.addInteraction
      split
      · rename_i hgt
        simp only [List.length_append, List.length_cons, List.length_nil] at hgt
        simp only [List.length_cons] at hroom
        omega
      · rfl
    rw [ih (h.addInteraction t)
      (by rw [addInteraction_maxHistory, hstep]
          simp only [List.length_append, List.length_cons, List.length_nil]
          simp only [List.length_cons] at hroom
          omega)]
    rw [hstep, List.append_assoc]
    rfl

/-- C6: for every sequence of `add_interaction` calls on a fresh
`ConversationHistory` with capacity 10, the history length never exceeds 10;
and pushing an 11th turn after 10 turns evicts exactly the oldest turn while
preserving the order of the remaining turns (`history = turns.tail ++ [new]`). -/
theorem conversationHistoryBoundedFifo :
    (∀ ts : List Interaction,
       (ts.foldl ConversationHistory.addInteraction ⟨[], 10⟩).history.length ≤ 10) ∧
    (∀ (ts : List Interaction) (i : Interaction), ts.length = 10 →
       ((ts.foldl ConversationHistory.addInteraction ⟨[], 10⟩).addInteraction i).history =
         ts.tail ++ [i]) := by
  constructor
  · intro ts
    have := foldl_addInteraction_length_le ts ⟨[], 10⟩ (by simp)
    rwa [foldl_addInteraction_maxHistory] at this
  · intro ts i hlen
    have hfull : (ts.foldl ConversationHistory.addInteraction ⟨[], 10⟩).history = ts := by
      have := foldl_addInteraction_no_evict ts ⟨[], 10⟩ (by simp [hlen])
      simpa using this
    have hmax : (ts.foldl ConversationHistory.addInteraction ⟨[], 10⟩).maxHistory = 10 :=
      foldl_addInteraction_maxHistory ts ⟨[], 10⟩
    rw [ConversationHistory.addInteraction, hfull, hmax]
    have : (ts ++ [i]).length > 10 := by
      simp only [List.length_append, List.length_cons, List.length_nil]
      omega
    rw [if_pos this]
    cases ts with
    | nil => simp at hlen
    | cons a t => simp

/-- Witness for C6: eleven concrete turns; the 11th push evicts turn #1. -/
theorem conversationHistoryBoundedFifo_witness :
    ((([⟨"1", "", "", "action", none⟩, ⟨"2", "", "", "action", none⟩,
        ⟨"3", "", "", "action", none⟩, ⟨"4", "", "", "action", none⟩,
        ⟨"5", "", "", "action", none⟩, ⟨"6", "", "", "action", none⟩,
        ⟨"7", "", "", "action", none⟩, ⟨"8", "", "", "action", none⟩,
        ⟨"9", "", "", "action", none⟩, ⟨"10", "", "", "action", none⟩] :
         List Interaction).foldl ConversationHistory.addInteraction
           ⟨[], 10⟩).addInteraction ⟨"11", "", "", "action", none⟩).history =
      [⟨"2", "", "", "action", none⟩, ⟨"3", "", "", "action", none⟩,
       ⟨"4", "", "", "action", none⟩, ⟨"5", "", "", "action", none⟩,
       ⟨"6", "", "", "action", none⟩, ⟨"7", "", "", "action", none⟩,
       ⟨"8", "", "", "action", none⟩, ⟨"9", "", "", "action", none⟩,
       ⟨"10", "", "", "action", none⟩, ⟨"11", "", "", "action", none⟩] :=
  conversationHistoryBoundedFifo.2 _ _ rfl

/-! ## Orchestrator: required-parameter validation and dispatch
(`src/src/orchestrator.py`, `Orchestrator.handle_user_message` and
`Orchestrator._check_required_params`). -/

/-- The static required-parameter table of `Orchestrator._check_required_params`
(lines 148-166). `agent`/`method` come from `response_data.get(...)` and may be
absent (`None`); any pair not listed yields the empty requirement list
(lines 168-169). -/
def requiredParams (agent method : Option String) : List String :=
  match agent, method with
  | some a, some m =>
    if a = "action" then
      if m = "create_product" then ["name", "price"]
      else if m = "update_product_price" then ["product_name", "price"]
      else if m = "create_shipping_zone" then ["name", "regions"]
      else if m = "add_shipping_method" then ["zone_id", "method_type", "title", "cost"]
      else if m = "manage_customer_points" then ["customer_id", "action", "points"]
      else if m = "refund_payment" then ["order_id", "amount"]
      else []
    else if a = "info" then
      if m = "get_products" then ["page", "per_page"]
      else if m = "get_shipping_tracking" then ["order_id"]
      else if m = "get_customer_orders" then ["customer_id"]
      else []
    else if a = "research" then
      if m = "analyze_competitors" then ["market_segment", "product_type"]
      else if m = "get_market_trends" then ["market_segment"]
      else []
    else []
  | _, _ => []

/-- `param not in params or params[param] is None` (line 173). -/
def isMissingParam (params : Params) (p : String) : Bool :=
  match lookupParam params p with
  | none => true
  | some JValue.null => true
  | some _ => false

/-- `Orchestrator._check_required_params`: the required names that are absent
or null, in table order (lines 171-176). -/
def checkRequiredParams (agent method : Option String) (params : Params) : List String :=
  (requiredParams agent method).filter (isMissingParam params)

/-- Modelled from the spec: the Message Template Store
(`src/resources/messages/he/messages.yaml`, loaded by
`MessageManager._load_messages`, is not in the source tree). Per §6 it supplies
a string for the `invalid_format` error category. -/
def msgInvalidFormat : String := "מצטער, לא הצלחתי להבין את הפורמט של הבקשה. אנא נסה שוב."

/-- Modelled from the spec: the `general_error` template of the Message
Template Store (YAML absent from the source tree). -/
def msgGeneralError : String := "מצטער, אירעה שגיאה. אנא נסה שוב."

/-- Modelled from the spec: the `not_found` template of the Message Template
Store (YAML absent from the source tree), parameterized by the `item`
placeholder — the orchestrator passes `item = f"סוכן {agent_name}"`. -/
def msgNotFound (item : String) : String := "לא הצלחתי למצוא את " ++ item ++ "."

/-- Modelled from the spec: the `agent_error` template of the Message Template
Store (YAML absent from the source tree), parameterized by the `agent`,
`method` and `error` placeholders. -/
def msgAgentError (agent method error : String) : String :=
  "שגיאה בסוכן " ++ agent ++ "." ++ method ++ ": " ++ error

/-- Python `f"{x}"` on an optional string: `None` renders as the text `None`. -/
def showOptStr : Option String → String
  | none => "None"
  | some s => s

/-- The f-string of `handle_user_message` line 106:
`f"חסר מידע: {', '.join(missing_params)}. אנא ספק את המידע החסר."`. -/
def missingInfoMessage (missing : List String) : String :=
  "חסר מידע: " ++ String.intercalate ", " missing ++ ". אנא ספק את המידע החסר."

/-- `self.agent_mapping` (lines 58-62) binds exactly the keys
`info`, `action`, `research`. -/
def agentRegistered (a : String) : Bool :=
  a == "info" || a == "action" || a == "research"

/-- Outcome of the awaited agent call `agent.handle_message(...)`:
either it raises an exception (carrying `str(e)`) or returns a response string
(the empty string standing for a falsy response). -/
inductive AgentOutcome where
  | raises (error : String)
  | returns (response : String)
deriving DecidableEq, Repr

/-- Outcome of `query_llm(prompt, provider="openai")` followed by the JSON step
(lines 85-96): the call raises; or it yields a string that `json.loads`
rejects (`JSONDecodeError`); or it yields a dict with the (optional)
`agent`/`method` keys and the `params` dict. -/
inductive LLMResult where
  | exn (error : String)
  | badJson
  | ok (agent : Option String) (method : Option String) (params : Params)
deriving DecidableEq, Repr

/-- The observable result of one `handle_user_message` call: the returned
string, the conversation history afterwards, and the argument triple of the
`agent.handle_message` call site if it was reached. -/
structure OrchResult where
  response : String
  history : ConversationHistory
  dispatchCall : Option (String × Option String × Params)
deriving DecidableEq, Repr

/-- The body of the outer `try` of `Orchestrator.handle_user_message`
(lines 70-137). `Except.error` is an exception escaping the body: the raise of
`query_llm` (line 85) propagates, while `json.JSONDecodeError` (line 94) and
any exception of the agent call (line 130) are caught by their inner handlers.
`dispatch` abstracts the awaited call `agent.handle_message(method, params)`. -/
def orchestratorBody (llm : LLMResult)
    (dispatch : String → Option String → Params → AgentOutcome)
    (hist : ConversationHistory) (now userMessage : String) :
    Except String OrchResult :=
  match llm with
  | .exn e => .error e
  | .badJson => .ok ⟨msgInvalidFormat, hist, none⟩
  | .ok agentName method params =>
    if (checkRequiredParams agentName method params).isEmpty then
      match agentName with
      | some a =>
        if agentRegistered a then
          match dispatch a method params with
          | .raises e =>
            .ok ⟨msgAgentError a (showOptStr method) e, hist, some (a, method, params)⟩
          | .returns resp =>
            if resp == "" then .ok ⟨msgGeneralError, hist, some (a, method, params)⟩
            else .ok ⟨resp, hist.addInteraction ⟨now, userMessage, resp, a, method⟩,
                      some (a, method, params)⟩
        else .ok ⟨msgNotFound ("סוכן " ++ a), hist, none⟩
      | none => .ok ⟨msgNotFound "סוכן None", hist, none⟩
    else .ok ⟨missingInfoMessage (checkRequiredParams agentName method params), hist, none⟩

/-- `Orchestrator.handle_user_message`: the body above wrapped in the outer
`except Exception` (lines 139-141), which converts any escaping exception into
the `general_error` string. An `Except.error` result would be an exception
raised to the caller. -/
def handleUserMessage (llm : LLMResult)
    (dispatch : String → Option String → Params → AgentOutcome)
    (hist : ConversationHistory) (now userMessage : String) :
    Except String OrchResult :=
  match orchestratorBody llm dispatch hist now userMessage with
  | .error _ => .ok ⟨msgGeneralError, hist, none⟩
  | .ok r => .ok r

theorem isMissingParam_iff (params : Params) (p : String) :
    isMissingParam params p = true ↔
      lookupParam params p = none ∨ lookupParam params p = some JValue.null := by
  unfold isMissingParam
  cases h : lookupParam params p with
  | none => simp
  | some v => cases v <;> simp

/-- C2: whenever the resolved `(agent, method)` pair has a required parameter
that is absent from `params` or present with a null value,
`handle_user_message` returns the missing-information message naming exactly
the missing parameter names (in table order), and the agent call site is never
reached (and the history is untouched). -/
theorem missingParamsBlockDispatch (agent method : Option String) (params : Params)
    (dispatch : String → Option String → Params → AgentOutcome)
    (hist : ConversationHistory) (now userMessage : String) (r : String)
    (hreq : r ∈ requiredParams agent method)
    (hmiss : lookupParam params r = none ∨ lookupParam params r = some JValue.null) :
    handleUserMessage (.ok agent method params) dispatch hist now userMessage =
      .ok ⟨missingInfoMessage (checkRequiredParams agent method params), hist, none⟩ ∧
    (∀ q, q ∈ checkRequiredParams agent method params ↔
       q ∈ requiredParams agent method ∧
         (lookupParam params q = none ∨ lookupParam params q = some JValue.null)) := by
  have hmem : r ∈ checkRequiredParams agent method params :=
    List.mem_filter.mpr ⟨hreq, (isMissingParam_iff params r).mpr hmiss⟩
  have hne : (checkRequiredParams agent method params).isEmpty = false := by
    cases hchk : checkRequiredParams agent method params with
    | nil => rw [hchk] at hmem; simp at hmem
    | cons a t => rfl
  constructor
  · simp only [handleUserMessage, orchestratorBody, hne, Bool.false_eq_true, if_false]
  · intro q
    unfold checkRequiredParams
    rw [List.mem_filter, isMissingParam_iff]

/-- Witness for C2: `create_product` with `price` present but null is blocked
with the message naming `price`. -/
theorem missingParamsBlockDispatch_witness :
    handleUserMessage
        (.ok (some "action") (some "create_product")
          [("name", JValue.s "חולצה"), ("price", JValue.null)])
        (fun _ _ _ => AgentOutcome.returns "ok") ⟨[], 10⟩ "t" "הודעה" =
      .ok ⟨missingInfoMessage
             (checkRequiredParams (some "action") (some "create_product")
               [("name", JValue.s "חולצה"), ("price", JValue.null)]),
           ⟨[], 10⟩, none⟩ ∧
    (∀ q, q ∈ checkRequiredParams (some "action") (some "create_product")
              [("name", JValue.s "חולצה"), ("price", JValue.null)] ↔
       q ∈ requiredParams (some "action") (some "create_product") ∧
         (lookupParam [("name", JValue.s "חולצה"), ("price", JValue.null)] q = none ∨
          lookupParam [("name", JValue.s "חולצה"), ("price", JValue.null)] q =
            some JValue.null)) :=
  missingParamsBlockDispatch (some "action") (some "create_product")
    [("name", JValue.s "חולצה"), ("price", JValue.null)]
    (fun _ _ _ => AgentOutcome.returns "ok") ⟨[], 10⟩ "t" "הודעה" "price"
    (by decide) (Or.inr rfl)

/-- C3: for every input message and every modelled behavior of the LLM backend
and of the agent call (including raised exceptions), `handle_user_message`
returns a string result (`Except.ok`) and never propagates an exception
(`Except.error`) to its caller. -/
theorem handleUserMessageNeverRaises (llm : LLMResult)
    (dispatch : String → Option String → Params → AgentOutcome)
    (hist : ConversationHistory) (now userMessage : String) :
    ∃ res : OrchResult,
      handleUserMessage llm dispatch hist now userMessage = .ok res := by
  unfold handleUserMessage
  cases hbody : orchestratorBody llm dispatch hist now userMessage with
  | error e => exact ⟨⟨msgGeneralError, hist, none⟩, rfl⟩
  | ok r => exact ⟨r, rfl⟩

/-! ## The concrete agent call (C4)
Each concrete agent exposes `async def handle_message(self, user_message: str)`
taking a single argument besides `self` (`action_agent.py` line 815,
`information_agent.py` line 523, `research_agent.py` line 58), while the
orchestrator's call site passes two positional arguments
(`agent.handle_message(method, params)`, line 117). -/

/-- A Python bound method by positional arity. All three agents'
`handle_message` methods are unary (one parameter besides `self`): its body —
whatever the agents do — maps the single `user_message` argument to an outcome. -/
inductive BoundMethod where
  | unary (body : String → AgentOutcome)

/-- The message of the `TypeError` Python raises when a unary method is called
with two positional arguments. -/
def typeErrorTwoArgs : String :=
  "TypeError: handle_message() takes 2 positional arguments but 3 were given"

/-- Python call semantics for the orchestrator call site, which supplies two
positional arguments (`method`, `params`): a unary bound method raises
`TypeError` without its body ever running. -/
def callWithMethodAndParams : BoundMethod → Option String → Params → AgentOutcome
  | .unary _, _, _ => .raises typeErrorTwoArgs

/-- The `handle_message` bound method of the agent registered under
`agentName`, with the three agents' (unary) bodies abstracted as `bodies`
(they call the WooCommerce API; only their arity matters at this call site). -/
def agentHandleMessageMethod (bodies : String → String → AgentOutcome)
    (agentName : String) : BoundMethod :=
  .unary (bodies agentName)

/-- The dispatch actually performed by `Orchestrator.handle_user_message`
line 117 against the concrete agents of `__init__`:
`await agent.handle_message(method, params)`. -/
def concreteDispatch (bodies : String → String → AgentOutcome) :
    String → Option String → Params → AgentOutcome :=
  fun a m p => callWithMethodAndParams (agentHandleMessageMethod bodies a) m p

/-- C4 (code evaluated at the failing input): for a fully validated
`create_product` intent and for EVERY possible agent body, the concrete
dispatch raises `TypeError` at the call itself — the registered handler's
body is never invoked with the validated parameters, and `handle_user_message`
returns the agent-error string instead of the handler's response. -/
theorem dispatchArityMismatch (bodies : String → String → AgentOutcome)
    (hist : ConversationHistory) (now userMessage : String) :
    handleUserMessage
        (.ok (some "action") (some "create_product")
          [("name", JValue.s "חולצה"), ("price", JValue.s "70")])
        (concreteDispatch bodies) hist now userMessage =
      .ok ⟨msgAgentError "action" "create_product" typeErrorTwoArgs, hist,
           some ("action", some "create_product",
                 [("name", JValue.s "חולצה"), ("price", JValue.s "70")])⟩ := rfl

/-- C5 counterexample: a validated `create_product` exchange whose agent call
fails definitively (raises). `handle_user_message` returns the agent-error
string, yet the conversation history stays empty — no Conversation Turn
recording the exchange is appended. -/
theorem failedExchangeNotRecorded :
    handleUserMessage
        (.ok (some "action") (some "create_product")
          [("name", JValue.s "חולצה"), ("price", JValue.s "70")])
        (fun _ _ _ => AgentOutcome.raises "connection error")
        ⟨[], 10⟩ "2025-01-01T00:00:00" "הוסף מוצר" =
      .ok ⟨msgAgentError "action" "create_product" "connection error", ⟨[], 10⟩,
           some ("action", some "create_product",
                 [("name", JValue.s "חולצה"), ("price", JValue.s "70")])⟩ ∧
    (⟨[], 10⟩ : ConversationHistory).history.length = 0 := ⟨rfl, rfl⟩

/-- C5 (amended): a Conversation Turn is appended exactly when the dispatched
agent call returns a non-empty response; every other outcome — including a
definitive handler failure — leaves the history untouched. When a turn is
appended it records the exchange (`user_message`, the returned response,
agent, method). -/
theorem historyAppendOnlyOnSuccessfulDispatch (llm : LLMResult)
    (dispatch : String → Option String → Params → AgentOutcome)
    (hist : ConversationHistory) (now userMessage : String) (res : OrchResult)
    (h : handleUserMessage llm dispatch hist now userMessage = .ok res) :
    res.history = hist ∨
    (∃ a m p, llm = .ok (some a) m p ∧
       dispatch a m p = .returns res.response ∧ res.response ≠ "" ∧
       res.history =
         hist.addInteraction ⟨now, userMessage, res.response, a, m⟩) := by
  cases llm with
  | exn e => unfold handleUserMessage orchestratorBody at h; left; cases h; rfl
  | badJson => unfold handleUserMessage orchestratorBody at h; left; cases h; rfl
  | ok agentName method params =>
    simp only [handleUserMessage, orchestratorBody] at h
    by_cases hchk : (checkRequiredParams agentName method params).isEmpty = true
    · rw [hchk] at h
      simp only [if_true] at h
      cases agentName with
      | none => left; cases h; rfl
      | some a =>
        simp only [] at h
        by_cases hreg : agentRegistered a = true
        · rw [hreg] at h
          simp only [if_true] at h
          cases hd : dispatch a method params with
          | raises e => rw [hd] at h; simp only [] at h; left; cases h; rfl
          | returns resp =>
            rw [hd] at h
            simp only [] at h
            by_cases hresp : (resp == "") = true
            · rw [hresp] at h
              simp only [if_true] at h
              left; cases h; rfl
            · rw [Bool.not_eq_true] at hresp
              rw [hresp] at h
              simp only [Bool.false_eq_true, if_false] at h
              right
              refine ⟨a, method, params, rfl, ?_, ?_, ?_⟩
              · cases h; exact hd
              · cases h
                simpa using (by simpa using hresp : (resp == "") = false)
              · cases h; rfl
        · rw [Bool.not_eq_true] at hreg
          rw [hreg] at h
          simp only [Bool.false_eq_true, if_false] at h
          left; cases h; rfl
    · rw [Bool.not_eq_true] at hchk
      rw [hchk] at h
      simp only [Bool.false_eq_true, if_false] at h
      left; cases h; rfl

/-- Witness for C5 (amended): a successful non-empty dispatch appends the turn
recording the exchange. -/
theorem historyAppendOnlyOnSuccessfulDispatch_witness :
    (⟨"המוצר נוצר", ⟨[⟨"t", "הוסף מוצר", "המוצר נוצר", "action", some "create_product"⟩], 10⟩,
      some ("action", some "create_product",
            [("name", JValue.s "חולצה"), ("price", JValue.s "70")])⟩ : OrchResult).history =
      (⟨[], 10⟩ : ConversationHistory) ∨
    (∃ a m p,
       (LLMResult.ok (some "action") (some "create_product")
          [("name", JValue.s "חולצה"), ("price", JValue.s "70")]) = .ok (some a) m p ∧
       (fun _ _ _ => AgentOutcome.returns "המוצר נוצר") a m p =
         AgentOutcome.returns
           (⟨"המוצר נוצר",
             ⟨[⟨"t", "הוסף מוצר", "המוצר נוצר", "action", some "create_product"⟩], 10⟩,
             some ("action", some "create_product",
                   [("name", JValue.s "חולצה"), ("price", JValue.s "70")])⟩ :
              OrchResult).response ∧
       (⟨"המוצר נוצר",
         ⟨[⟨"t", "הוסף מוצר", "המוצר נוצר", "action", some "create_product"⟩], 10⟩,
         some ("action", some "create_product",
               [("name", JValue.s "חולצה"), ("price", JValue.s "70")])⟩ :
          OrchResult).response ≠ "" ∧
       (⟨"המוצר נוצר",
         ⟨[⟨"t", "הוסף מוצר", "המוצר נוצר", "action", some "create_product"⟩], 10⟩,
         some ("action", some "create_product",
               [("name", JValue.s "חולצה"), ("price", JValue.s "70")])⟩ :
          OrchResult).history =
         (⟨[], 10⟩ : ConversationHistory).addInteraction
           ⟨"t", "הוסף מוצר",
            (⟨"המוצר נוצר",
              ⟨[⟨"t", "הוסף מוצר", "המוצר נוצר", "action", some "create_product"⟩], 10⟩,
              some ("action", some "create_product",
                    [("name", JValue.s "חולצה"), ("price", JValue.s "70")])⟩ :
               OrchResult).response, a, m⟩) :=
  historyAppendOnlyOnSuccessfulDispatch
    (.ok (some "action") (some "create_product")
      [("name", JValue.s "חולצה"), ("price", JValue.s "70")])
    (fun _ _ _ => AgentOutcome.returns "המוצר נוצר") ⟨[], 10⟩ "t" "הוסף מוצר"
    ⟨"המוצר נוצר", ⟨[⟨"t", "הוסף מוצר", "המוצר נוצר", "action", some "create_product"⟩], 10⟩,
     some ("action", some "create_product",
           [("name", JValue.s "חולצה"), ("price", JValue.s "70")])⟩ rfl

/-! ## Capability Router (C1) -/

/-- The three capability domains (spec §4.1 / glossary). -/
inductive Domain where
  | information
  | action
  | research
deriving DecidableEq, Repr

/-- Modelled from the spec: the Capability Router's Action keyword set
(create/add/update/change/delete/remove verbs, §4.1). The keyword router is
not present under `src/` — `bot.py` forwards every text message to the
ActionAgent and `orchestrator.py` delegates domain selection to the LLM — so
the router is reconstructed from the spec's words, in the repository's Hebrew
command vocabulary. -/
def actionKeywords : List String :=
  ["צור", "הוסף", "עדכן", "שנה", "מחק", "הסר"]

/-- Modelled from the spec: the Information keyword set
(show/display/how-many/products/report/sales/coupons/discounts, §4.1). -/
def informationKeywords : List String :=
  ["הצג", "הראה", "כמה", "מוצרים", "דוח", "מכירות", "קופונים", "הנחות"]

/-- Modelled from the spec: the Research keyword set
(competitors/research/market/comparison, §4.1). -/
def researchKeywords : List String :=
  ["מתחרים", "מחקר", "שוק", "השוואה"]

/-- Whether `needle` occurs contiguously inside `haystack` (Python `in`). -/
def isSubstring (needle : List Char) : List Char → Bool
  | [] => needle.isPrefixOf []
  | c :: rest => needle.isPrefixOf (c :: rest) || isSubstring needle rest

/-- Whether the (case-normalized) message contains any keyword of the set as a
substring. -/
def anyKeywordIn (kws : List String) (m : List Char) : Bool :=
  kws.any (fun kw => isSubstring kw.toList m)

/-- Modelled from the spec: `route(message) -> Domain` (§4.1) — scan the
case-normalized message against the keyword sets in order, Action first; no
match is the distinguished unresolved value `none` (the Fallback Responder's
case). -/
def route (message : String) : Option Domain :=
  if anyKeywordIn actionKeywords (message.toList.map Char.toLower) then some Domain.action
  else if anyKeywordIn informationKeywords (message.toList.map Char.toLower) then
    some Domain.information
  else if anyKeywordIn researchKeywords (message.toList.map Char.toLower) then
    some Domain.research
  else none

/-- C1: a message containing both an Action keyword and an Information keyword
is routed to the Action domain and never to the Information domain. -/
theorem capabilityRouterActionPriority (message : String)
    (hA : anyKeywordIn actionKeywords (message.toList.map Char.toLower) = true)
    (_hI : anyKeywordIn informationKeywords (message.toList.map Char.toLower) = true) :
    route message = some Domain.action ∧ route message ≠ some Domain.information := by
  have hr : route message = some Domain.action := by
    unfold route
    rw [hA]
    rfl
  exact ⟨hr, by rw [hr]; intro hcontra; cases hcontra⟩

/-- Witness for C1: "הוסף מוצרים" contains the Action keyword "הוסף" and the
Information keyword "מוצרים", and routes to Action. -/
theorem capabilityRouterActionPriority_witness :
    route "הוסף מוצרים" = some Domain.action ∧
      route "הוסף מוצרים" ≠ some Domain.information :=
  capabilityRouterActionPriority "הוסף מוצרים" (by decide) (by decide)

/-! ## Pattern extraction (`ActionAgent._extract_coupon_info`, lines 197-231) -/

/-- Python's `\s` class on the inputs at hand (ASCII whitespace). -/
def pyIsSpace (c : Char) : Bool :=
  c = ' ' || c = '\t' || c = '\n' || c = '\r' || c = '\x0b' || c = '\x0c'

/-- `re.search(r'(\d+)\s*' + lit, message)`, returning group 1: scan for the
leftmost position where a maximal digit run, optional whitespace and then the
literal `lit` match. (For this pattern shape, greedy maximal munch coincides
with the regex engine's backtracking search: shrinking `\d+` leaves a digit
where the non-digit literal must start, and shrinking `\s*` leaves whitespace
where the non-whitespace literal must start.) -/
def searchNumberBefore (lit : List Char) : List Char → Option String
  | [] => none
  | c :: rest =>
    if c.isDigit then
      if lit.isPrefixOf (((c :: rest).dropWhile Char.isDigit).dropWhile pyIsSpace) then
        some (String.mk ((c :: rest).takeWhile Char.isDigit))
      else searchNumberBefore lit rest
    else searchNumberBefore lit rest

/-- The character class `[a-zA-Z0-9_-]` of the coupon-code pattern. -/
def isCouponCodeChar (c : Char) : Bool :=
  ('a' ≤ c && c ≤ 'z') || ('A' ≤ c && c ≤ 'Z') || c.isDigit || c = '_' || c = '-'

/-- `re.search(r'קוד קופון\s+([a-zA-Z0-9_-]+)', message)`, returning group 1:
leftmost occurrence of the literal, then at least one whitespace, then a
maximal non-empty run of code characters. (Maximal munch again coincides with
regex backtracking: the code class contains no whitespace.) -/
def searchCouponCode : List Char → Option String
  | [] => none
  | c :: rest =>
    if ("קוד קופון".toList).isPrefixOf (c :: rest) then
      if pyIsSpace (((c :: rest).drop ("קוד קופון".toList).length).headD 'x') &&
         !((((c :: rest).drop ("קוד קופון".toList).length).dropWhile pyIsSpace).takeWhile
             isCouponCodeChar).isEmpty then
        some (String.mk
          ((((c :: rest).drop ("קוד קופון".toList).length).dropWhile pyIsSpace).takeWhile
            isCouponCodeChar))
      else searchCouponCode rest
    else searchCouponCode rest

/-- Decimal digit character (Python's rendering of one digit of an `int`). -/
def decDigit (n : Nat) : Char := Char.ofNat (48 + n)

/-- Decimal rendering of a natural number, digit list form, with explicit fuel
(always called with fuel `n + 1 > n`, so the fuel never runs out). Models the
f-string rendering of `random.randint(...)`. -/
def decListAux : Nat → Nat → List Char
  | 0, _ => []
  | f + 1, n => if n < 10 then [decDigit n] else decListAux f (n / 10) ++ [decDigit (n % 10)]

/-- Decimal rendering of a natural number as a string (Python `f"{n}"`). -/
def decRepr (n : Nat) : String := String.mk (decListAux (n + 1) n)

theorem decListAux_fuel_irrel (n : Nat) : ∀ f g : Nat, n < f → n < g →
    decListAux f n = decListAux g n := by
  induction n using Nat.strong_induction_on with
  | _ n ih =>
    intro f g hf hg
    match f, g with
    | f' + 1, g' + 1 =>
      simp only [decListAux]
      by_cases h10 : n < 10
      · simp only [if_pos h10]
      · simp only [if_neg h10]
        have hdiv : n / 10 < n := Nat.div_lt_self (by omega) (by omega)
        rw [ih (n / 10) hdiv f' (g' + 1) (by omega) (by omega),
            ih (n / 10) hdiv (g' + 1) g' (by omega) (by omega)]

theorem decListAux_unfold (n : Nat) (h : 10 ≤ n) :
    decListAux (n + 1) n = decListAux (n / 10 + 1) (n / 10) ++ [decDigit (n % 10)] := by
  have hdiv : n / 10 < n := Nat.div_lt_self (by omega) (by omega)
  have hstep : decListAux (n + 1) n =
      if n < 10 then [decDigit n] else decListAux n (n / 10) ++ [decDigit (n % 10)] := by
    simp only [decListAux]
  rw [hstep, if_neg (by omega : ¬ n < 10),
      decListAux_fuel_irrel (n / 10) n (n / 10 + 1) hdiv (by omega)]

theorem decListAux_small (n : Nat) (h : n < 10) : decListAux (n + 1) n = [decDigit n] := by
  simp only [decListAux, if_pos h]

theorem decDigit_isDigit : ∀ k, k < 10 → (decDigit k).isDigit = true := by decide

/-- The generated 4-digit suffix: for any draw of `random.randint(1000, 9999)`,
the decimal rendering has exactly 4 characters, all digits. -/
theorem decRepr_four_digits (d : Nat) (h1 : 1000 ≤ d) (h2 : d ≤ 9999) :
    (decRepr d).length = 4 ∧ (decRepr d).toList.all Char.isDigit = true := by
  have e1 : decListAux (d + 1) d = decListAux (d / 10 + 1) (d / 10) ++ [decDigit (d % 10)] :=
    decListAux_unfold d (by omega)
  have e2 : decListAux (d / 10 + 1) (d / 10) =
      decListAux (d / 10 / 10 + 1) (d / 10 / 10) ++ [decDigit (d / 10 % 10)] :=
    decListAux_unfold (d / 10) (by omega)
  have e3 : decListAux (d / 10 / 10 + 1) (d / 10 / 10) =
      decListAux (d / 10 / 10 / 10 + 1) (d / 10 / 10 / 10) ++ [decDigit (d / 10 / 10 % 10)] :=
    decListAux_unfold (d / 10 / 10) (by omega)
  have e4 : decListAux (d / 10 / 10 / 10 + 1) (d / 10 / 10 / 10) =
      [decDigit (d / 10 / 10 / 10)] :=
    decListAux_small (d / 10 / 10 / 10) (by omega)
  have hlist : decListAux (d + 1) d =
      [decDigit (d / 10 / 10 / 10), decDigit (d / 10 / 10 % 10),
       decDigit (d / 10 % 10), decDigit (d % 10)] := by
    rw [e1, e2, e3, e4]
    rfl
  constructor
  · show (String.mk (decListAux (d + 1) d)).length = 4
    rw [hlist]
    rfl
  · show ((String.mk (decListAux (d + 1) d)).toList.all Char.isDigit) = true
    rw [show (String.mk (decListAux (d + 1) d)).toList = decListAux (d + 1) d from rfl, hlist]
    simp only [List.all_cons, List.all_nil, Bool.and_true]
    rw [decDigit_isDigit _ (by omega), decDigit_isDigit _ (by omega),
        decDigit_isDigit _ (by omega), decDigit_isDigit _ (by omega)]
    rfl

/-- The parameter set built by `_extract_coupon_info`: the `base_data` fields
(description, minimum_amount, usage_limit, usage_limit_per_user,
individual_use) plus code, discount_type and amount. -/
structure CouponData where
  description : String
  minimumAmount : String
  usageLimit : Nat
  usageLimitPerUser : Nat
  individualUse : Bool
  code : String
  discountType : String
  amount : String
deriving DecidableEq, Repr

/-- `ActionAgent._extract_coupon_info` (lines 197-231). The draw of
`random.randint(1000, 9999)` is made explicit as the `draw` argument; the
three regex searches are evaluated first, then the percent branch, then the
fixed-amount branch, else no match. -/
def extractCouponInfo (draw : Nat) (message : List Char) : Option CouponData :=
  match searchNumberBefore ("אחוז".toList) message,
        searchNumberBefore ("שקל".toList) message,
        searchCouponCode message with
  | some p, _, codeMatch =>
    some ⟨"קופון שנוצר אוטומטית", "0", 100, 1, true,
          codeMatch.getD ("SALE" ++ p ++ "_" ++ decRepr draw), "percent", p⟩
  | none, some a, codeMatch =>
    some ⟨"קופון שנוצר אוטומטית", "0", 100, 1, true,
          codeMatch.getD ("FIXED" ++ a ++ "_" ++ decRepr draw), "fixed_cart", a⟩
  | none, none, _ => none

/-- C8 counterexample: two successive calls of `_extract_coupon_info` on the
same text draw fresh values from `random.randint(1000, 9999)` (here 1000 and
then 1001) and return different generated coupon codes — the extractor is not
deterministic across calls. -/
theorem couponExtractorTwoCallsDiffer :
    extractCouponInfo 1000 ("צור קופון של 20 אחוז".toList) ≠
      extractCouponInfo 1001 ("צור קופון של 20 אחוז".toList) := by decide

/-- C8 (amended): `_extract_coupon_info` is a pure function of the text and
the drawn random suffix, and whenever the message carries an explicit coupon
code the draw is unused — two calls on such a text yield identical results.
(Only the randomized fallback code of a code-less message varies between
calls.) -/
theorem couponExtractorDeterministicGivenCode (message : List Char) (d1 d2 : Nat)
    (c : String) (h : searchCouponCode message = some c) :
    extractCouponInfo d1 message = extractCouponInfo d2 message := by
  unfold extractCouponInfo
  rw [h]
  cases hp : searchNumberBefore ("אחוז".toList) message <;>
    cases ha : searchNumberBefore ("שקל".toList) message <;>
      simp only [hp, ha, Option.getD_some]

/-- Witness for C8 (amended): an explicit code `ABC123` makes the two draws
irrelevant. -/
theorem couponExtractorDeterministicGivenCode_witness :
    extractCouponInfo 1000 ("צור קופון של 20 אחוז קוד קופון ABC123".toList) =
      extractCouponInfo 9999 ("צור קופון של 20 אחוז קוד קופון ABC123".toList) :=
  couponExtractorDeterministicGivenCode
    ("צור קופון של 20 אחוז קוד קופון ABC123".toList) 1000 9999 "ABC123" rfl

/-- C9: on `"צור קופון של 20 אחוז"` (no explicit code) the extractor does not
fail: for every draw of `random.randint(1000, 9999)` it yields a percent
coupon with amount `"20"` and a generated code `SALE20_` followed by the
4-digit decimal suffix — i.e. matching `SALE20_\d{4}`. -/
theorem couponPercentGeneratedCode (d : Nat) (h1 : 1000 ≤ d) (h2 : d ≤ 9999) :
    extractCouponInfo d ("צור קופון של 20 אחוז".toList) =
      some ⟨"קופון שנוצר אוטומטית", "0", 100, 1, true,
            "SALE20_" ++ decRepr d, "percent", "20"⟩ ∧
    (decRepr d).length = 4 ∧ (decRepr d).toList.all Char.isDigit = true :=
  ⟨rfl, decRepr_four_digits d h1 h2⟩

/-- Witness for C9: the draw 1234 produces the code `SALE20_1234`. -/
theorem couponPercentGeneratedCode_witness :
    extractCouponInfo 1234 ("צור קופון של 20 אחוז".toList) =
      some ⟨"קופון שנוצר אוטומטית", "0", 100, 1, true,
            "SALE20_" ++ decRepr 1234, "percent", "20"⟩ ∧
    (decRepr 1234).length = 4 ∧ (decRepr 1234).toList.all Char.isDigit = true :=
  couponPercentGeneratedCode 1234 (by decide) (by decide)

/-! ## LLM response cleaning (`LLMClient.query`, `tools/llm_api.py` lines 143-147) -/

/-- Python `str.strip()` with no argument: drop leading and trailing
whitespace. -/
def pyStrip (s : List Char) : List Char :=
  ((s.dropWhile pyIsSpace).reverse.dropWhile pyIsSpace).reverse

/-- The response-cleaning step of `LLMClient.query`:
`content = content.strip(); if content.startswith("```json"): content = content[7:-3]`.
Python `content[7:-3]` keeps the characters at indices 7 through `len - 4`. -/
def cleanLLMContent (content : List Char) : List Char :=
  if ("```json".toList).isPrefixOf (pyStrip content) then
    ((pyStrip content).take ((pyStrip content).length - 3)).drop 7
  else pyStrip content

/-- The opening-brace character starting a JSON object text. -/
def jsonObjectStart : Char := Char.ofNat 123

theorem isPrefixOf_append_self {α : Type} [BEq α] [LawfulBEq α] (l t : List α) :
    l.isPrefixOf (l ++ t) = true := by
  induction l with
  | nil => cases t <;> rfl
  | cons c cs ih => simp [List.isPrefixOf, ih]

theorem pyStrip_no_space_ends (c d : Char) (l : List Char)
    (hc : pyIsSpace c = false) (hd : pyIsSpace d = false) :
    pyStrip (c :: (l ++ [d])) = c :: (l ++ [d]) := by
  unfold pyStrip
  rw [List.dropWhile_cons_of_neg (by simp [hc]),
      show (c :: (l ++ [d])).reverse = d :: (l.reverse ++ [c]) by simp,
      List.dropWhile_cons_of_neg (by simp [hd])]
  simp

/-- C7: for every JSON object text `j` (its stripped form starts with the
opening brace), running the fenced response `"```json" ++ j ++ "```"` through
the cleaning step of `LLMClient.query` and parsing yields exactly the same
result as running the bare `j` through it, for any parser that ignores
surrounding whitespace (as `json.loads` does). -/
theorem codeFenceRoundTrip {V : Type} (parse : List Char → Option V)
    (hparse : ∀ s, parse (pyStrip s) = parse s) (j : List Char)
    (hj : (pyStrip j).headD 'x' = jsonObjectStart) :
    parse (cleanLLMContent (("```json".toList) ++ j ++ ("```".toList))) =
      parse (cleanLLMContent j) := by
  have hwrapped : pyStrip (("```json".toList) ++ j ++ ("```".toList)) =
      ("```json".toList) ++ j ++ ("```".toList) := by
    have := pyStrip_no_space_ends '`' '`' ("``json".toList ++ j ++ "``".toList)
      (by decide) (by decide)
    simpa using this
  have hnotfence : ("```json".toList).isPrefixOf (pyStrip j) = false := by
    cases hps : pyStrip j with
    | nil => rfl
    | cons c t =>
      rw [hps] at hj
      simp only [List.headD_cons] at hj
      subst hj
      rfl
  have hclean_wrapped :
      cleanLLMContent (("```json".toList) ++ j ++ ("```".toList)) = j := by
    unfold cleanLLMContent
    rw [hwrapped]
    rw [if_pos (by
      have : ("```json".toList) ++ j ++ ("```".toList) =
          ("```json".toList) ++ (j ++ ("```".toList)) := by simp
      rw [this]
      exact isPrefixOf_append_self _ _)]
    have hassoc : ("```json".toList) ++ j ++ ("```".toList) =
        (("```json".toList) ++ j) ++ ("```".toList) := by simp
    rw [hassoc]
    have hlen : ((("```json".toList) ++ j) ++ ("```".toList)).length - 3 =
        (("```json".toList) ++ j).length := by
      simp
    rw [hlen, List.take_left]
    exact List.drop_left ("```json".toList) j
  have hclean_bare : cleanLLMContent j = pyStrip j := by
    unfold cleanLLMContent
    rw [hnotfence]
    simp
  rw [hclean_wrapped, hclean_bare, hparse j]

/-- Witness for C7: the fenced empty object parses like the bare one (with a
parser constant on its input, trivially whitespace-insensitive). -/
theorem codeFenceRoundTrip_witness :
    (fun _ : List Char => (some 0 : Option Nat))
        (cleanLLMContent (("```json".toList) ++ "\x7b\x7d".toList ++ ("```".toList))) =
      (fun _ : List Char => (some 0 : Option Nat)) (cleanLLMContent "\x7b\x7d".toList) :=
  codeFenceRoundTrip (fun _ => some 0) (fun _ => rfl) ("\x7b\x7d".toList) (by decide)

/-! ## Refunds (`ActionAgent.process_refund`, `action_agent.py` lines 1377-1456)
The WooCommerce API is the external collaborator: its per-call outcomes are the
`RefundEnv` parameter. Order totals and refund amounts are only parsed,
compared and copied by this function — never combined arithmetically — so they
are modelled exactly as `ℚ`. -/

/-- An order as read back from `GET orders/{id}` (the fields `process_refund`
inspects). -/
structure WCOrder where
  total : ℚ
  status : String
  paymentMethod : String
deriving DecidableEq

/-- Outcome of one WooCommerce API call, by status code
(`ok` = the success code the caller checks for; `err` = any other code). -/
inductive ApiResult where
  | ok
  | err (code : Nat)
deriving DecidableEq, Repr

/-- Outcome of `GET orders/{id}`. -/
inductive OrderLookup where
  | found (order : WCOrder)
  | httpError (code : Nat)
deriving DecidableEq

/-- The WooCommerce API as seen by one `process_refund` run. -/
structure RefundEnv where
  getOrder : OrderLookup
  putOrderStatus : String → ApiResult
  postRefund : ℚ → String → ApiResult
  postNote : String → ApiResult

/-- The observable trace of one `process_refund` run: the returned string, the
amount sent to `POST orders/{id}/refunds` (if that call was made), and the
amount rendered into the manual-refund order note (if that call was made). -/
structure RefundTrace where
  response : String
  refundCallAmount : Option ℚ
  manualNoteAmount : Option ℚ
deriving DecidableEq

/-- `f"בוצע החזר בסך {amount} ש\"ח להזמנה {order_id}"` (lines 1426/1442). -/
def refundSuccessMsg (amount : ℚ) (orderId : Nat) : String :=
  "בוצע החזר בסך " ++ toString amount ++ " ש\"ח להזמנה " ++ toString orderId

/-- The customer note of `process_manual_refund` (line 1419). -/
def manualRefundNote (amount : ℚ) (reason : String) : String :=
  "בוצע החזר ידני בסך " ++ toString amount ++ " ש\"ח. סיבה: " ++ reason

/-- The inner `process_manual_refund` closure (lines 1410-1426): set the order
status to `refunded`, then post the customer note carrying the (already
clamped) amount. `refundCallAmt` records a preceding automatic-refund attempt. -/
def manualRefund (env : RefundEnv) (orderId : Nat) (amount : ℚ) (reason : String)
    (refundCallAmt : Option ℚ) : RefundTrace :=
  match env.putOrderStatus "refunded" with
  | .err c => ⟨"שגיאה בעדכון סטטוס הזמנה: " ++ toString c, refundCallAmt, none⟩
  | .ok =>
    match env.postNote (manualRefundNote amount reason) with
    | .err c => ⟨"שגיאה בהוספת הערה: " ++ toString c, refundCallAmt, some amount⟩
    | .ok => ⟨refundSuccessMsg amount orderId, refundCallAmt, some amount⟩

/-- Lines 1428-1452, after the amount has been clamped: automatic refund for
`ppec_paypal`/`stripe` (falling back to the manual path on any failure),
manual path otherwise. -/
def refundClamped (env : RefundEnv) (orderId : Nat) (amount : ℚ) (reason : String)
    (order : WCOrder) : RefundTrace :=
  if order.paymentMethod == "ppec_paypal" || order.paymentMethod == "stripe" then
    match env.postRefund amount reason with
    | .ok => ⟨refundSuccessMsg amount orderId, some amount, none⟩
    | .err _ => manualRefund env orderId amount reason (some amount)
  else manualRefund env orderId amount reason none

/-- `ActionAgent.process_refund`: read the order; fix up its status if it is
not refundable yet (early error return on failure); clamp the requested amount
to the order total (`if amount > total: amount = total`, lines 1406-1408);
then refund. -/
def processRefund (env : RefundEnv) (orderId : Nat) (amount : ℚ) (reason : String) :
    RefundTrace :=
  match env.getOrder with
  | .httpError c => ⟨"שגיאה בקבלת פרטי הזמנה: " ++ toString c, none, none⟩
  | .found order =>
    if order.status == "completed" || order.status == "processing" then
      refundClamped env orderId (if amount > order.total then order.total else amount)
        reason order
    else
      match env.putOrderStatus "completed" with
      | .err c => ⟨"שגיאה בעדכון סטטוס הזמנה: " ++ toString c, none, none⟩
      | .ok =>
        refundClamped env orderId (if amount > order.total then order.total else amount)
          reason order

theorem manualRefund_amounts (env : RefundEnv) (orderId : Nat) (amount : ℚ)
    (reason : String) (refundCallAmt : Option ℚ) :
    (manualRefund env orderId amount reason refundCallAmt).refundCallAmount =
      refundCallAmt ∧
    ((manualRefund env orderId amount reason refundCallAmt).manualNoteAmount = none ∨
     (manualRefund env orderId amount reason refundCallAmt).manualNoteAmount =
       some amount) := by
  unfold manualRefund
  cases hput : env.putOrderStatus "refunded" with
  | err c => exact ⟨rfl, Or.inl rfl⟩
  | ok =>
    cases hnote : env.postNote (manualRefundNote amount reason) with
    | err c => exact ⟨rfl, Or.inr rfl⟩
    | ok => exact ⟨rfl, Or.inr rfl⟩

theorem refundClamped_amounts (env : RefundEnv) (orderId : Nat) (amount : ℚ)
    (reason : String) (order : WCOrder) :
    ((refundClamped env orderId amount reason order).refundCallAmount = none ∨
     (refundClamped env orderId amount reason order).refundCallAmount = some amount) ∧
    ((refundClamped env orderId amount reason order).manualNoteAmount = none ∨
     (refundClamped env orderId amount reason order).manualNoteAmount = some amount) := by
  unfold refundClamped
  by_cases hpm : (order.paymentMethod == "ppec_paypal" ||
      order.paymentMethod == "stripe") = true
  · rw [if_pos hpm]
    cases hpost : env.postRefund amount reason with
    | ok => exact ⟨Or.inr rfl, Or.inl rfl⟩
    | err c =>
      refine ⟨Or.inr ?_, (manualRefund_amounts env orderId amount reason (some amount)).2⟩
      exact (manualRefund_amounts env orderId amount reason (some amount)).1
  · rw [if_neg hpm]
    refine ⟨Or.inl ?_, (manualRefund_amounts env orderId amount reason none).2⟩
    exact (manualRefund_amounts env orderId amount reason none).1

theorem processRefund_found (env : RefundEnv) (orderId : Nat) (amount : ℚ)
    (reason : String) (order : WCOrder) (hord : env.getOrder = .found order) :
    processRefund env orderId amount reason =
      (if order.status == "completed" || order.status == "processing" then
        refundClamped env orderId (if amount > order.total then order.total else amount)
          reason order
      else
        match env.putOrderStatus "completed" with
        | .err c =>
          ⟨"שגיאה בעדכון סטטוס הזמנה: " ++ toString c, none, none⟩
        | .ok =>
          refundClamped env orderId (if amount > order.total then order.total else amount)
            reason order) := by
  unfold processRefund
  rw [hord]

/-- C10: when the order lookup succeeds and the requested refund amount
exceeds the order's total, `process_refund` behaves exactly as if the order's
total had been requested, and every amount it actually uses — in the
`POST .../refunds` call and in the manual-refund note — equals the order's
total, never the requested excess. -/
theorem refundNeverExceedsTotal (env : RefundEnv) (orderId : Nat) (amount : ℚ)
    (reason : String) (order : WCOrder)
    (hord : env.getOrder = .found order) (hgt : amount > order.total) :
    processRefund env orderId amount reason =
      processRefund env orderId order.total reason ∧
    ((processRefund env orderId amount reason).refundCallAmount = none ∨
     (processRefund env orderId amount reason).refundCallAmount = some order.total) ∧
    ((processRefund env orderId amount reason).manualNoteAmount = none ∨
     (processRefund env orderId amount reason).manualNoteAmount = some order.total) := by
  have hc1 : (if amount > order.total then order.total else amount) = order.total :=
    if_pos hgt
  have hc2 : (if order.total > order.total then order.total else order.total) =
      order.total := by
    rw [if_neg (lt_irrefl order.total)]
  rw [processRefund_found env orderId amount reason order hord,
      processRefund_found env orderId order.total reason order hord, hc1, hc2]
  refine ⟨rfl, ?_, ?_⟩ <;>
  · by_cases hst : (order.status == "completed" || order.status == "processing") = true
    · rw [if_pos hst]
      first
      | exact (refundClamped_amounts env orderId order.total reason order).1
      | exact (refundClamped_amounts env orderId order.total reason order).2
    · rw [if_neg hst]
      cases hput : env.putOrderStatus "completed" with
      | err c => exact Or.inl rfl
      | ok =>
        first
        | exact (refundClamped_amounts env orderId order.total reason order).1
        | exact (refundClamped_amounts env orderId order.total reason order).2

/-- Witness for C10: requesting 80 against an order of total 50 refunds
exactly 50. -/
theorem refundNeverExceedsTotal_witness :
    (processRefund
        ⟨OrderLookup.found ⟨50, "completed", "stripe"⟩, fun _ => ApiResult.ok,
         fun _ _ => ApiResult.ok, fun _ => ApiResult.ok⟩ 123 80 "בקשת לקוח" =
      processRefund
        ⟨OrderLookup.found ⟨50, "completed", "stripe"⟩, fun _ => ApiResult.ok,
         fun _ _ => ApiResult.ok, fun _ => ApiResult.ok⟩ 123 50 "בקשת לקוח") ∧
    ((processRefund
        ⟨OrderLookup.found ⟨50, "completed", "stripe"⟩, fun _ => ApiResult.ok,
         fun _ _ => ApiResult.ok, fun _ => ApiResult.ok⟩ 123 80 "בקשת לקוח").refundCallAmount =
        none ∨
     (processRefund
        ⟨OrderLookup.found ⟨50, "completed", "stripe"⟩, fun _ => ApiResult.ok,
         fun _ _ => ApiResult.ok, fun _ => ApiResult.ok⟩ 123 80 "בקשת לקוח").refundCallAmount =
        some 50) ∧
    ((processRefund
        ⟨OrderLookup.found ⟨50, "completed", "stripe"⟩, fun _ => ApiResult.ok,
         fun _ _ => ApiResult.ok, fun _ => ApiResult.ok⟩ 123 80 "בקשת לקוח").manualNoteAmount =
        none ∨
     (processRefund
        ⟨OrderLookup.found ⟨50, "completed", "stripe"⟩, fun _ => ApiResult.ok,
         fun _ _ => ApiResult.ok, fun _ => ApiResult.ok⟩ 123 80 "בקשת לקוח").manualNoteAmount =
        some 50) :=
  refundNeverExceedsTotal
    ⟨OrderLookup.found ⟨50, "completed", "stripe"⟩, fun _ => ApiResult.ok,
     fun _ _ => ApiResult.ok, fun _ => ApiResult.ok⟩ 123 80 "בקשת לקוח"
    ⟨50, "completed", "stripe"⟩ rfl (by norm_num)
